import Mathlib

/-!
Shallow embedding of src/jeu_automatique.py.

The program is a number-guessing simulator with two routines invoked from a
single entry point:
- devine_le_nombre_auto: 5 rounds of binary search against a secret drawn
  from [1,10], with per-round and final statistics output;
- jeu_demo_simple: one secret and three random guesses, checked in order.

Randomness is modelled as a stream f : Nat -> Int, where f k is the value
returned by the k-th call of random.randint(1, 10) during the run (the
program performs exactly 9 such calls, at fixed positions in the control
flow).  Console output is modelled as a list of Line values, one per print
statement, each constructor carrying the numeric payloads interpolated into
the corresponding Python f-string.  Python integers are modelled as Int and
Python floor division // as Int.fdiv.  The while loops are written with a
fuel parameter for structural recursion; the fuel is always instantiated to
5 - tentatives, which is 0 exactly when the loop guard tentatives < 5 is
false, so the guard, kept verbatim in the body, is what actually stops the
loop.
-/

/-- Outcome printed after a guess of the simulation loop:
" -> Trop petit!", " -> Trop grand!" or " -> Trouve!". -/
inductive Verdict where
  | tropPetit
  | tropGrand
  | trouve
deriving DecidableEq, Repr

/-- Outcome printed after a guess of the quick demo:
" -> Plus grand", " -> Plus petit" or " -> Gagne!". -/
inductive DemoVerdict where
  | plusGrand
  | plusPetit
  | gagne
deriving DecidableEq, Repr

/-- One print statement of the program, with its numeric payloads.
Each constructor corresponds to one print site of src/jeu_automatique.py.
The two statistics lines formatted with ":.1f" carry the printed value as
an integer number of tenths. -/
inductive Line where
  /-- "Jeu de Devinette Automatique - Simulation de 5 parties" -/
  | simHeader
  /-- the separator line of 50 equal signs -/
  | sep50
  /-- "Partie {partie}:" -/
  | partieHeader (partie : Nat)
  /-- "Nombre secret genere: {nombre_secret}" -/
  | secretGen (s : Int)
  /-- "Tentative {tentatives}: {devine}" followed by the verdict text -/
  | tentative (t : Nat) (devine : Int) (v : Verdict)
  /-- "Echec apres {tentatives} tentatives. Le nombre etait {nombre_secret}" -/
  | echec (t : Nat) (s : Int)
  /-- "Succes en {tentatives} tentatives!" -/
  | succes (t : Nat)
  /-- "Statistiques de la simulation:" -/
  | statsHeader
  /-- "Parties jouees: 5" -/
  | partiesJouees
  /-- "Parties gagnees: {parties_gagnees}" -/
  | partiesGagnees (n : Nat)
  /-- "Taux de reussite: {(parties_gagnees/5)*100:.1f}%"; the payload is
  the printed percentage in tenths -/
  | tauxReussite (tenths : Int)
  /-- "Moyenne de tentatives: {total_tentatives/5:.1f}"; the payload is the
  printed mean in tenths -/
  | moyenneTentatives (tenths : Int)
  /-- "Simulation terminee avec succes!" -/
  | simFin
  /-- the separator line of 30 dashes printed by the entry point -/
  | dashSep30
  /-- "Demonstration rapide du jeu de devinette" -/
  | demoHeader
  /-- "Nombre secret: {nombre_secret}" -/
  | demoSecret (s : Int)
  /-- "Tentative {i}: {tentative}" followed by the verdict text -/
  | demoTentative (i : Nat) (g : Int) (v : DemoVerdict)
  /-- "Le nombre etait {nombre_secret}" (the for-else reveal message) -/
  | demoReveal (s : Int)
deriving DecidableEq, Repr

/-- The value num/den formatted with the Python format spec ":.1f",
expressed in tenths: the integer nearest to 10*num/den, halves rounded up.
Python formats the IEEE double nearest to num/den; for every value this
program can produce (num a multiple of den, or den = 5, so 10*num/den is an
exact integer and no rounding tie or double-precision discrepancy can
occur) that formatting agrees with this exact rational rounding. -/
def roundTenths (num : Int) (den : Nat) : Int :=
  (20 * num + den) / (2 * den : Nat)

/-- The guessing loop of devine_le_nombre_auto (lines 22-38 of the source):
while not trouve and tentatives < 5, guess the floor midpoint of
[min_val, max_val], print the attempt, and narrow the interval.  Returns the
printed lines, the final value of tentatives, and the final value of trouve.
Returning at the found branch instead of re-entering the loop with
trouve = true is equivalent to the source guard "not trouve and".  The fuel
argument is 5 - tentatives, which is 0 exactly when the guard fails. -/
def boucleAux (secret minVal maxVal : Int) (tentatives : Nat) :
    Nat → List Line × Nat × Bool
  | 0 => ([], tentatives, false)
  | fuel + 1 =>
    if tentatives < 5 then
      let devine := Int.fdiv (minVal + maxVal) 2
      if devine < secret then
        let r := boucleAux secret (devine + 1) maxVal (tentatives + 1) fuel
        (Line.tentative (tentatives + 1) devine Verdict.tropPetit :: r.1, r.2)
      else if devine > secret then
        let r := boucleAux secret minVal (devine - 1) (tentatives + 1) fuel
        (Line.tentative (tentatives + 1) devine Verdict.tropGrand :: r.1, r.2)
      else
        ([Line.tentative (tentatives + 1) devine Verdict.trouve],
          tentatives + 1, true)
    else ([], tentatives, false)

/-- The guessing loop entered at an arbitrary state.  Every state reachable
in the source has tentatives ≤ 5, for which 5 - tentatives iterations are
exactly what the guard permits. -/
def boucleDevine (secret minVal maxVal : Int) (tentatives : Nat) :
    List Line × Nat × Bool :=
  boucleAux secret minVal maxVal tentatives (5 - tentatives)

/-- Final value of tentatives for one round played with the interval the
source initializes, [1,10]. -/
def roundAttempts (secret : Int) : Nat := (boucleDevine secret 1 10 0).2.1

/-- Final value of trouve for one round played with the interval [1,10]. -/
def roundFound (secret : Int) : Bool := (boucleDevine secret 1 10 0).2.2

/-- The interval [min_val, max_val] at each execution of the loop body: the
same recursion as boucleAux, instrumented to record the interval instead of
the printed lines. -/
def statesAux (secret minVal maxVal : Int) (tentatives : Nat) :
    Nat → List (Int × Int)
  | 0 => []
  | fuel + 1 =>
    if tentatives < 5 then
      let devine := Int.fdiv (minVal + maxVal) 2
      if devine < secret then
        (minVal, maxVal) ::
          statesAux secret (devine + 1) maxVal (tentatives + 1) fuel
      else if devine > secret then
        (minVal, maxVal) ::
          statesAux secret minVal (devine - 1) (tentatives + 1) fuel
      else [(minVal, maxVal)]
    else []

/-- Interval trace of the guessing loop entered at an arbitrary state. -/
def boucleStates (secret minVal maxVal : Int) (tentatives : Nat) :
    List (Int × Int) :=
  statesAux secret minVal maxVal tentatives (5 - tentatives)

/-- The body of the for-partie loop (lines 11-45), iterated over the list of
(partie, nombre_secret) pairs, threading the accumulators total_tentatives
and parties_gagnees.  The source increments parties_gagnees inside the loop
when the guess is found; accumulating "if trouve then 1 else 0" after the
loop is equivalent.  Returns the printed lines and the final accumulators. -/
def simSession : List (Nat × Int) → Nat → Nat → List Line × Nat × Nat
  | [], totalTentatives, partiesGagnees => ([], totalTentatives, partiesGagnees)
  | (partie, s) :: rest, totalTentatives, partiesGagnees =>
    let r := boucleDevine s 1 10 0
    let roundLines :=
      Line.partieHeader partie :: Line.secretGen s :: r.1 ++
        [if r.2.2 then Line.succes r.2.1 else Line.echec r.2.1 s]
    let next := simSession rest (totalTentatives + r.2.1)
      (partiesGagnees + (if r.2.2 then 1 else 0))
    (roundLines ++ next.1, next.2)

/-- devine_le_nombre_auto (lines 3-54): header, the 5 rounds of
range(1, 6) unrolled (round k consumes the (k-1)-th randint value), then
the final statistics computed from the accumulators:
(parties_gagnees/5)*100 = (100*parties_gagnees)/5 and total_tentatives/5,
each formatted to one decimal. -/
def devine_le_nombre_auto (f : Nat → Int) : List Line :=
  let s := simSession
    [(1, f 0), (2, f 1), (3, f 2), (4, f 3), (5, f 4)] 0 0
  Line.simHeader :: Line.sep50 :: s.1 ++
    [Line.sep50, Line.statsHeader, Line.partiesJouees,
      Line.partiesGagnees s.2.2,
      Line.tauxReussite (roundTenths (100 * (s.2.2 : Int)) 5),
      Line.moyenneTentatives (roundTenths (s.2.1 : Int) 5),
      Line.simFin]

/-- The for-tentative loop of jeu_demo_simple (lines 66-76), with i the
1-based index of enumerate: each guess is printed; a match prints the win
verdict and breaks; the for-else reveal line prints only when the list is
exhausted without a break. -/
def demoLoop (secret : Int) (i : Nat) : List Int → List Line
  | [] => [Line.demoReveal secret]
  | g :: rest =>
    if g = secret then [Line.demoTentative i g DemoVerdict.gagne]
    else if g < secret then
      Line.demoTentative i g DemoVerdict.plusGrand :: demoLoop secret (i + 1) rest
    else
      Line.demoTentative i g DemoVerdict.plusPetit :: demoLoop secret (i + 1) rest

/-- jeu_demo_simple (lines 56-76): the secret is the first randint value of
the routine, the three guesses the next three (the list comprehension always
draws exactly 3). -/
def jeu_demo_simple (f : Nat → Int) : List Line :=
  Line.demoHeader :: Line.demoSecret (f 0) ::
    demoLoop (f 0) 1 [f 1, f 2, f 3]

/-- The entry point (lines 78-85): the full simulation, a separator, then
the quick demo.  The run performs 9 randint calls in this order: the 5
round secrets, the demo secret, the 3 demo guesses. -/
def programOutput (f : Nat → Int) : List Line :=
  devine_le_nombre_auto f ++ Line.dashSep30 :: jeu_demo_simple (fun k => f (5 + k))

/-- The guess payload of a printed attempt line (0 for any other line;
the guessing loop only emits attempt lines). -/
def Line.guessOf : Line → Int
  | .tentative _ d _ => d
  | _ => 0

/-- Whether a line is the failure message of a round. -/
def Line.isEchec : Line → Bool
  | .echec _ _ => true
  | _ => false

/-- Whether a line is the reveal message of the quick demo. -/
def Line.isReveal : Line → Bool
  | .demoReveal _ => true
  | _ => false

/-- Number of rounds a given list of secrets wins, each round judged
independently by the guessing loop. -/
def sessionWins (secrets : List Int) : Nat :=
  (secrets.filter (fun s => roundFound s)).length

/-- Total attempts a given list of secrets costs, each round judged
independently by the guessing loop. -/
def sessionAttempts (secrets : List Int) : Nat :=
  (secrets.map roundAttempts).sum

/-- Rounding to one decimal place as the specification states it: the
rational multiple of 1/10 nearest to q. -/
def fmt1 (q : ℚ) : ℚ := ((round (10 * q) : Int) : ℚ) / 10

/-- Recreation of the round loop from the specification text, for the
refinement claim: maintain a closed interval [lo, hi]; repeatedly compute
guess = floor((lo+hi)/2) and increment the attempt counter; if guess is
below the secret set lo = guess+1, if above set hi = guess-1, if equal mark
found and stop; the loop terminates when found or the attempt count reaches
5.  Returns the guesses made, the attempt count and the found flag.  The
fuel argument plays the same role as in boucleAux. -/
def specAux (secret lo hi : Int) (attempts : Nat) (found : Bool) :
    Nat → List Int × Nat × Bool
  | 0 => ([], attempts, found)
  | fuel + 1 =>
    if ¬ found ∧ attempts < 5 then
      let guess := Int.fdiv (lo + hi) 2
      if guess < secret then
        let r := specAux secret (guess + 1) hi (attempts + 1) found fuel
        (guess :: r.1, r.2)
      else if guess > secret then
        let r := specAux secret lo (guess - 1) (attempts + 1) found fuel
        (guess :: r.1, r.2)
      else ([guess], attempts + 1, true)
    else ([], attempts, found)

/-- The specification loop entered at an arbitrary state. -/
def specLoop (secret lo hi : Int) (attempts : Nat) (found : Bool) :
    List Int × Nat × Bool :=
  specAux secret lo hi attempts found (5 - attempts)

/-! ## Helper lemmas -/

/-- For each of the 10 possible secrets, the round is won, within 1 to 4
attempts, and the loop prints no failure line. -/
theorem round_facts (s : Int) (h1 : 1 ≤ s) (h2 : s ≤ 10) :
    roundFound s = true ∧ 1 ≤ roundAttempts s ∧ roundAttempts s ≤ 4 ∧
    ((boucleDevine s 1 10 0).1.all fun l => !l.isEchec) = true := by
  interval_cases s <;> decide

/-- The specification loop and the source loop compute the same guesses,
attempt count and found flag, for any common fuel. -/
theorem specAux_eq_boucleAux (secret : Int) :
    ∀ (fuel : Nat) (lo hi : Int) (t : Nat),
      specAux secret lo hi t false fuel =
        ((boucleAux secret lo hi t fuel).1.map Line.guessOf,
          (boucleAux secret lo hi t fuel).2) := by
  intro fuel
  induction fuel with
  | zero => intro lo hi t; simp [specAux, boucleAux]
  | succ n ih =>
    intro lo hi t
    by_cases ht : t < 5
    · by_cases hlt : Int.fdiv (lo + hi) 2 < secret
      · simp [specAux, boucleAux, ht, hlt, ih, Line.guessOf]
      · by_cases hgt : Int.fdiv (lo + hi) 2 > secret
        · simp [specAux, boucleAux, ht, hlt, hgt, ih, Line.guessOf]
        · simp [specAux, boucleAux, ht, hlt, hgt, Line.guessOf]
    · simp [specAux, boucleAux, ht]

/-- The tenths computed by the embedded formatting are exactly the rational
rounding of 10 times the formatted quotient. -/
theorem roundTenths_eq_round (num : Int) (den : Nat) (h : 0 < den) :
    ((roundTenths num den : Int) : ℚ) =
      round (10 * ((num : ℚ) / (den : ℚ))) := by
  rw [round_eq, roundTenths]
  have hd : ((den : ℚ)) ≠ 0 := by positivity
  have harg : 10 * ((num : ℚ) / (den : ℚ)) + 1 / 2 =
      ((20 * num + (den : Int) : Int) : ℚ) / ((2 * den : Nat) : ℚ) := by
    push_cast
    field_simp
    ring
  rw [harg, Rat.floor_intCast_div_natCast]

/-- Wins contributed by one more secret at the head of a session. -/
theorem sessionWins_cons (s : Int) (L : List Int) :
    sessionWins (s :: L) = (if roundFound s then 1 else 0) + sessionWins L := by
  simp only [sessionWins, List.filter_cons]
  cases hf : roundFound s
  · simp
  · simp
    omega

/-- Attempts contributed by one more secret at the head of a session. -/
theorem sessionAttempts_cons (s : Int) (L : List Int) :
    sessionAttempts (s :: L) = roundAttempts s + sessionAttempts L := by
  simp [sessionAttempts]

/-- The final total_tentatives accumulator is the starting value plus the
attempts of the rounds played. -/
theorem simSession_total (rounds : List (Nat × Int)) :
    ∀ (tot won : Nat),
      (simSession rounds tot won).2.1 =
        tot + sessionAttempts (rounds.map Prod.snd) := by
  induction rounds with
  | nil => intro tot won; simp [simSession, sessionAttempts]
  | cons ps rest ih =>
    intro tot won
    obtain ⟨p, s⟩ := ps
    simp only [simSession, List.map_cons, sessionAttempts_cons, ih]
    rw [show (boucleDevine s 1 10 0).2.1 = roundAttempts s from rfl]
    omega

/-- The final parties_gagnees accumulator is the starting value plus the
number of rounds won. -/
theorem simSession_won (rounds : List (Nat × Int)) :
    ∀ (tot won : Nat),
      (simSession rounds tot won).2.2 =
        won + sessionWins (rounds.map Prod.snd) := by
  induction rounds with
  | nil => intro tot won; simp [simSession, sessionWins]
  | cons ps rest ih =>
    intro tot won
    obtain ⟨p, s⟩ := ps
    simp only [simSession, List.map_cons, sessionWins_cons, ih]
    rw [show (boucleDevine s 1 10 0).2.2 = roundFound s from rfl]
    cases hf : roundFound s
    · simp
    · simp
      omega

/-- The full output of the simulation runner: header, the round blocks, and
statistics computed from the per-round results. -/
theorem devine_structure (f : Nat → Int) :
    devine_le_nombre_auto f =
      Line.simHeader :: Line.sep50 ::
        (simSession [(1, f 0), (2, f 1), (3, f 2), (4, f 3), (5, f 4)] 0 0).1 ++
        [Line.sep50, Line.statsHeader, Line.partiesJouees,
          Line.partiesGagnees (sessionWins [f 0, f 1, f 2, f 3, f 4]),
          Line.tauxReussite
            (roundTenths (100 * (sessionWins [f 0, f 1, f 2, f 3, f 4] : Int)) 5),
          Line.moyenneTentatives
            (roundTenths ((sessionAttempts [f 0, f 1, f 2, f 3, f 4] : Int)) 5),
          Line.simFin] := by
  have ht := simSession_total [(1, f 0), (2, f 1), (3, f 2), (4, f 3), (5, f 4)] 0 0
  have hw := simSession_won [(1, f 0), (2, f 1), (3, f 2), (4, f 3), (5, f 4)] 0 0
  simp only [List.map_cons, List.map_nil, Nat.zero_add, zero_add] at ht hw
  simp only [devine_le_nombre_auto, ht, hw]

/-- Every line a list of in-range rounds contributes is not the failure
line. -/
theorem simSession_no_echec (rounds : List (Nat × Int)) :
    ∀ (tot won : Nat), (∀ ps ∈ rounds, 1 ≤ ps.2 ∧ ps.2 ≤ 10) →
      ∀ l ∈ (simSession rounds tot won).1, l.isEchec = false := by
  induction rounds with
  | nil => intro tot won _ l hl; simp [simSession] at hl
  | cons ps rest ih =>
    intro tot won hrange l hl
    obtain ⟨p, s⟩ := ps
    have hs : 1 ≤ s ∧ s ≤ 10 := hrange (p, s) (by simp)
    have hfacts := round_facts s hs.1 hs.2
    have hfound : (boucleDevine s 1 10 0).2.2 = true := hfacts.1
    simp only [simSession, hfound, if_true, List.cons_append, List.append_assoc,
      List.singleton_append, List.mem_cons, List.mem_append] at hl
    rcases hl with h | h | h | h | (h | h)
    · simp [h, Line.isEchec]
    · simp [h, Line.isEchec]
    · have := List.all_eq_true.1 hfacts.2.2.2 l h
      simpa using this
    · simp [h, Line.isEchec]
    · simp at h
    · exact ih _ _ (fun q hq => hrange q (by simp [hq])) l h

/-- The reveal lines the demo loop emits: none when some guess matches the
secret, exactly the one carrying the secret otherwise. -/
theorem demoLoop_reveal (secret : Int) :
    ∀ (gs : List Int) (i : Nat),
      (demoLoop secret i gs).filter Line.isReveal =
        if secret ∈ gs then [] else [Line.demoReveal secret] := by
  intro gs
  induction gs with
  | nil => intro i; simp [demoLoop, Line.isReveal]
  | cons g rest ih =>
    intro i
    by_cases hg : g = secret
    · simp [demoLoop, hg, Line.isReveal]
    · by_cases hlt : g < secret
      · simp [demoLoop, hg, hlt, Line.isReveal, ih, Ne.symm hg]
      · simp [demoLoop, hg, hlt, Line.isReveal, ih, Ne.symm hg]

/-! ## Claim theorems -/

/-- C1: for every stream of in-range random values, every one of the 5
rounds ends marked found, and the failure branch is unreachable: no line of
the Simulation Runner output is the Echec message. -/
theorem C1_echec_unreachable (f : Nat → Int)
    (h : ∀ k, k < 5 → 1 ≤ f k ∧ f k ≤ 10) :
    (∀ k, k < 5 → roundFound (f k) = true) ∧
    ∀ l ∈ devine_le_nombre_auto f, l.isEchec = false := by
  constructor
  · intro k hk
    exact (round_facts (f k) (h k hk).1 (h k hk).2).1
  · intro l hl
    rw [devine_structure f] at hl
    rcases List.mem_cons.1 hl with rfl | hl2
    · rfl
    rcases List.mem_cons.1 hl2 with rfl | hl3
    · rfl
    rcases List.mem_append.1 hl3 with hmem | hmem
    · refine simSession_no_echec _ 0 0 ?_ l hmem
      intro ps hps
      simp only [List.mem_cons, List.not_mem_nil, or_false] at hps
      rcases hps with rfl | rfl | rfl | rfl | rfl
      · exact h 0 (by norm_num)
      · exact h 1 (by norm_num)
      · exact h 2 (by norm_num)
      · exact h 3 (by norm_num)
      · exact h 4 (by norm_num)
    · simp only [List.mem_cons, List.not_mem_nil, or_false] at hmem
      rcases hmem with rfl | rfl | rfl | rfl | rfl | rfl | rfl <;> rfl

/-- C1 witness: with every random value 7, round 1 is found and the failure
line for 5 attempts at secret 7 is absent from the output. -/
theorem C1_witness :
    roundFound 7 = true ∧
    Line.echec 5 7 ∉ devine_le_nombre_auto (fun _ => 7) := by
  have h := C1_echec_unreachable (fun _ => 7)
    (fun k _ => by constructor <;> norm_num)
  refine ⟨h.1 0 (by norm_num), fun hmem => ?_⟩
  have := h.2 (Line.echec 5 7) hmem
  simp [Line.isEchec] at this

/-- C2: the source round loop follows exactly the steps of the
specification: the loop written from the specification words (midpoint
guess, counter increment, interval narrowing, stop on found or 5 attempts)
produces the same guess sequence, attempt count and found flag from every
state, and in particular from the initial interval [1,10]. -/
theorem C2_spec_refinement :
    (∀ (secret lo hi : Int) (t : Nat),
        specLoop secret lo hi t false =
          ((boucleDevine secret lo hi t).1.map Line.guessOf,
            (boucleDevine secret lo hi t).2)) ∧
    (∀ secret : Int,
        specLoop secret 1 10 0 false =
          ((boucleDevine secret 1 10 0).1.map Line.guessOf,
            roundAttempts secret, roundFound secret)) := by
  constructor
  · intro secret lo hi t
    exact specAux_eq_boucleAux secret (5 - t) lo hi t
  · intro secret
    exact specAux_eq_boucleAux secret 5 1 10 0

/-- C3: the Quick Demo prints the reveal line exactly once when no guess
equals the secret, and not at all when some guess does; the line printed
carries the secret value. -/
theorem C3_demo_reveal (f : Nat → Int) :
    (jeu_demo_simple f).filter Line.isReveal =
      if f 0 ∈ [f 1, f 2, f 3] then [] else [Line.demoReveal (f 0)] := by
  have h1 : Line.isReveal Line.demoHeader = false := rfl
  have h2 : Line.isReveal (Line.demoSecret (f 0)) = false := rfl
  simp only [jeu_demo_simple, List.filter_cons, h1, h2, Bool.false_eq_true,
    if_false]
  exact demoLoop_reveal (f 0) [f 1, f 2, f 3] 1

/-- C4: the final report prints the win rate (rounds_won / 5) * 100 and the
mean attempts total_attempts / 5, each rounded to one decimal place, where
rounds_won and total_attempts accumulate the 5 rounds. -/
theorem C4_report_stats (f : Nat → Int) :
    devine_le_nombre_auto f =
      Line.simHeader :: Line.sep50 ::
        (simSession [(1, f 0), (2, f 1), (3, f 2), (4, f 3), (5, f 4)] 0 0).1 ++
        [Line.sep50, Line.statsHeader, Line.partiesJouees,
          Line.partiesGagnees (sessionWins [f 0, f 1, f 2, f 3, f 4]),
          Line.tauxReussite
            (roundTenths (100 * (sessionWins [f 0, f 1, f 2, f 3, f 4] : Int)) 5),
          Line.moyenneTentatives
            (roundTenths ((sessionAttempts [f 0, f 1, f 2, f 3, f 4] : Int)) 5),
          Line.simFin] ∧
    ((roundTenths (100 * (sessionWins [f 0, f 1, f 2, f 3, f 4] : Int)) 5 : Int) : ℚ) / 10 =
      fmt1 (((sessionWins [f 0, f 1, f 2, f 3, f 4] : ℚ) / 5) * 100) ∧
    ((roundTenths ((sessionAttempts [f 0, f 1, f 2, f 3, f 4] : Int)) 5 : Int) : ℚ) / 10 =
      fmt1 ((sessionAttempts [f 0, f 1, f 2, f 3, f 4] : ℚ) / 5) := by
  refine ⟨devine_structure f, ?_, ?_⟩
  · rw [fmt1, roundTenths_eq_round _ 5 (by norm_num)]
    have harg : (10 : ℚ) * (((100 * (sessionWins [f 0, f 1, f 2, f 3, f 4] : Int) : Int) : ℚ) / ((5 : Nat) : ℚ)) =
        10 * (((sessionWins [f 0, f 1, f 2, f 3, f 4] : ℚ)) / 5 * 100) := by
      push_cast
      ring
    rw [harg]
  · rw [fmt1, roundTenths_eq_round _ 5 (by norm_num)]
    have harg : (10 : ℚ) * ((((sessionAttempts [f 0, f 1, f 2, f 3, f 4] : Int) : Int) : ℚ) / ((5 : Nat) : ℚ)) =
        10 * ((sessionAttempts [f 0, f 1, f 2, f 3, f 4] : ℚ) / 5) := by
      push_cast
      ring
    rw [harg]

/-- C5 counterexample: with secret 1 the round does not take 4 attempts
with guesses 5, 3, 2, 1. -/
theorem C5_counterexample :
    ¬ (roundAttempts 1 = 4 ∧
        (boucleDevine 1 1 10 0).1.map Line.guessOf = [5, 3, 2, 1]) := by
  decide

/-- C5 amended: with secret 1 the midpoint strategy resolves the round in
exactly 3 attempts with the guess sequence 5, 2, 1. -/
theorem C5_secret_one_trace :
    (boucleDevine 1 1 10 0).1.map Line.guessOf = [5, 2, 1] ∧
    roundAttempts 1 = 3 ∧ roundFound 1 = true := by
  decide

/-- C6: with secret 7 the guesses are 5 (too small, interval becomes
[6,10]), 8 (too big, interval becomes [6,7]), 6 (too small, interval
becomes [7,7]), then 7, found in exactly 4 attempts. -/
theorem C6_secret_seven_trace :
    (boucleDevine 7 1 10 0).1 =
      [Line.tentative 1 5 Verdict.tropPetit,
        Line.tentative 2 8 Verdict.tropGrand,
        Line.tentative 3 6 Verdict.tropPetit,
        Line.tentative 4 7 Verdict.trouve] ∧
    boucleStates 7 1 10 0 = [(1, 10), (6, 10), (6, 7), (7, 7)] ∧
    roundAttempts 7 = 4 ∧ roundFound 7 = true := by
  decide

/-- C7: for every in-range secret, the attempt counter at the end of the
round satisfies 1 ≤ attempts ≤ 5. -/
theorem C7_attempts_bounds (s : Int) (h1 : 1 ≤ s) (h2 : s ≤ 10) :
    1 ≤ roundAttempts s ∧ roundAttempts s ≤ 5 := by
  obtain ⟨-, ha, hb, -⟩ := round_facts s h1 h2
  exact ⟨ha, by omega⟩

/-- C7 witness: the bounds at secret 7. -/
theorem C7_witness : 1 ≤ roundAttempts 7 ∧ roundAttempts 7 ≤ 5 :=
  C7_attempts_bounds 7 (by norm_num) (by norm_num)

/-- C8: throughout the guessing loop of a round with in-range secret, the
interval bounds satisfy min_val ≤ secret ≤ max_val, so min_val > max_val
never occurs. -/
theorem C8_interval_invariant (s : Int) (h1 : 1 ≤ s) (h2 : s ≤ 10) :
    ∀ p ∈ boucleStates s 1 10 0, p.1 ≤ s ∧ s ≤ p.2 ∧ p.1 ≤ p.2 := by
  interval_cases s <;> decide

/-- C8 witness: the invariant at secret 7 for the initial interval. -/
theorem C8_witness :
    ((1 : Int), (10 : Int)).1 ≤ 7 ∧ (7 : Int) ≤ ((1 : Int), (10 : Int)).2 ∧
    ((1 : Int), (10 : Int)).1 ≤ ((1 : Int), (10 : Int)).2 :=
  C8_interval_invariant 7 (by norm_num) (by norm_num) (1, 10) (by decide)

/-- C9: the program is deterministic given its random source: two runs
receiving the same 9 values from the random integer generator produce the
same output. -/
theorem C9_deterministic (f g : Nat → Int)
    (h : ∀ k, k < 9 → f k = g k) :
    programOutput f = programOutput g := by
  have h0 := h 0 (by norm_num)
  have h1 := h 1 (by norm_num)
  have h2 := h 2 (by norm_num)
  have h3 := h 3 (by norm_num)
  have h4 := h 4 (by norm_num)
  have h5 := h 5 (by norm_num)
  have h6 := h 6 (by norm_num)
  have h7 := h 7 (by norm_num)
  have h8 := h 8 (by norm_num)
  simp only [programOutput, devine_le_nombre_auto, jeu_demo_simple]
  norm_num
  rw [h0, h1, h2, h3, h4, h5, h6, h7, h8]

/-- C9 witness: the constant-7 stream run against itself. -/
theorem C9_witness :
    programOutput (fun _ => 7) = programOutput (fun _ => 7) :=
  C9_deterministic (fun _ => 7) (fun _ => 7) (fun _ _ => rfl)

/-- C10: for every stream of in-range random values, every round finds the
secret in at most 4 attempts, parties_gagnees is exactly 5, and the win
rate line reads 100.0 percent (1000 tenths). -/
theorem C10_always_won (f : Nat → Int)
    (h : ∀ k, k < 5 → 1 ≤ f k ∧ f k ≤ 10) :
    (∀ k, k < 5 → roundAttempts (f k) ≤ 4) ∧
    sessionWins [f 0, f 1, f 2, f 3, f 4] = 5 ∧
    Line.partiesGagnees 5 ∈ devine_le_nombre_auto f ∧
    Line.tauxReussite 1000 ∈ devine_le_nombre_auto f := by
  have hf : ∀ k, k < 5 → roundFound (f k) = true ∧ roundAttempts (f k) ≤ 4 := by
    intro k hk
    have := round_facts (f k) (h k hk).1 (h k hk).2
    exact ⟨this.1, this.2.2.1⟩
  have hwins : sessionWins [f 0, f 1, f 2, f 3, f 4] = 5 := by
    have e0 := (hf 0 (by norm_num)).1
    have e1 := (hf 1 (by norm_num)).1
    have e2 := (hf 2 (by norm_num)).1
    have e3 := (hf 3 (by norm_num)).1
    have e4 := (hf 4 (by norm_num)).1
    simp [sessionWins_cons, e0, e1, e2, e3, e4, sessionWins]
  have h1000 : roundTenths (100 * ((5 : Nat) : Int)) 5 = 1000 := by decide
  refine ⟨fun k hk => (hf k hk).2, hwins, ?_, ?_⟩
  · rw [devine_structure f, hwins]
    simp
  · rw [devine_structure f, hwins, h1000]
    simp

/-- C10 witness: the constant-7 stream wins all 5 rounds within 4 attempts
and reports 100.0 percent. -/
theorem C10_witness :
    roundAttempts 7 ≤ 4 ∧ sessionWins [7, 7, 7, 7, 7] = 5 ∧
    Line.tauxReussite 1000 ∈ devine_le_nombre_auto (fun _ => 7) := by
  have h := C10_always_won (fun _ => 7)
    (fun k _ => by constructor <;> norm_num)
  exact ⟨h.1 0 (by norm_num), h.2.1, h.2.2.2⟩
